import Mathlib

/-!
Verification of the reconciliation/wait engine of the terraform-provider-aws
excerpt (apigatewayv2 domain name resource).

The data model and the domain-name resource operations are embedded from
src/unnamed/part_001 (package apigatewayv2).  Go pointers become Option,
Go (value, status, error) triples become a PollOutcome structure, the AWS
API calls become explicit result parameters.  The generic StatusPoller
(resource.StateChangeConf.WaitForStateContext) and the TagReconciler
(Diff/Apply) are not part of the excerpt; they are modelled from the spec
where marked.
-/

set_option autoImplicit false

/-- One domain name configuration object (apigatewayv2.DomainNameConfiguration);
every Go field of pointer type becomes an Option. -/
structure DomainNameConfiguration where
  CertificateArn : Option String
  EndpointType : Option String
  HostedZoneId : Option String
  SecurityPolicy : Option String
  ApiGatewayDomainName : Option String
  OwnershipVerificationCertificateArn : Option String
  DomainNameStatus : Option String
  DomainNameStatusMessage : Option String
deriving DecidableEq, Repr

/-- Result object of the GetDomainName API call (apigatewayv2.GetDomainNameOutput).
DomainNameConfigurations is a Go slice of pointers, hence a list of Options. -/
structure GetDomainNameOutput where
  DomainName : Option String
  ApiMappingSelectionExpression : Option String
  DomainNameConfigurations : List (Option DomainNameConfiguration)
deriving DecidableEq, Repr

/-- Errors flowing through the provider code: a raw AWS API error carrying a
code and a message, the resource.NotFoundError wrapper produced by
FindDomainName (recording the code of the wrapped error when there is one),
the tfresource EmptyResultError, and any other uninterpreted error. -/
inductive TFError where
  | awsAPIError (code : String) (message : String)
  | notFoundError (lastErrorCode : Option String)
  | emptyResultError
  | genericError (message : String)
deriving DecidableEq, Repr

/-- The aws.StringValue helper: dereference a string pointer, with the empty
string for nil. -/
def StringValue : Option String → String
  | some s => s
  | none => ""

/-- The tfawserr.ErrCodeEquals helper: true exactly when the error is an AWS
API error whose code equals the given code (false on a nil error). -/
def ErrCodeEquals : Option TFError → String → Bool
  | some (TFError.awsAPIError c _), code => c == code
  | _, _ => false

/-- The tfresource.NotFound helper: errors.As to resource.NotFoundError.  It
matches the NotFoundError wrapper directly, and also EmptyResultError, whose
As method converts it into a resource.NotFoundError. -/
def NotFound : TFError → Bool
  | TFError.notFoundError _ => true
  | TFError.emptyResultError => true
  | _ => false

/-- The apigatewayv2.ErrCodeNotFoundException constant. -/
def ErrCodeNotFoundException : String := "NotFoundException"

/-- The apigatewayv2.DomainNameStatusUpdating constant. -/
def DomainNameStatusUpdating : String := "UPDATING"

/-- The apigatewayv2.DomainNameStatusAvailable constant. -/
def DomainNameStatusAvailable : String := "AVAILABLE"

/-- Result of one call of the remote GetDomainName (or DeleteDomainName) API:
the Go pair (output pointer, error). -/
structure APIResult where
  output : Option GetDomainNameOutput
  err : Option TFError
deriving DecidableEq, Repr

/-- FindDomainName from the source: wraps a NotFoundException API error code
into a resource.NotFoundError, forwards any other error, converts a nil
output, an empty DomainNameConfigurations slice or a nil first element into
an EmptyResultError, and otherwise returns the output.  A successful result
is a plain (non-optional) GetDomainNameOutput, which captures that the Go
function never returns a nil output together with a nil error. -/
def FindDomainName (api : APIResult) : Except TFError GetDomainNameOutput :=
  if ErrCodeEquals api.err ErrCodeNotFoundException then
    Except.error (TFError.notFoundError (some ErrCodeNotFoundException))
  else
    match api.err with
    | some e => Except.error e
    | none =>
      match api.output with
      | none => Except.error TFError.emptyResultError
      | some output =>
        match output.DomainNameConfigurations with
        | [] => Except.error TFError.emptyResultError
        | none :: _ => Except.error TFError.emptyResultError
        | some _ :: _ => Except.ok output

/-- Dereference of output.DomainNameConfigurations[0]: the head of the slice
when it exists and is a non-nil pointer. -/
def domainNameConfigurationsHead (output : GetDomainNameOutput) :
    Option DomainNameConfiguration :=
  Option.join output.DomainNameConfigurations.head?

/-- Result of one refresh attempt of the state poller: the Go triple
(value pointer, status string, error) returned by a
resource.StateRefreshFunc. -/
structure PollOutcome (α : Type) where
  value : Option α
  status : String
  error : Option TFError
deriving DecidableEq, Repr

/-- statusDomainName from the source: calls FindDomainName, maps a not-found
error to (nil, "", nil), forwards any other error as (nil, "", err), and on
success returns the output with the dereferenced status of its first domain
name configuration. -/
def statusDomainName (api : APIResult) : PollOutcome GetDomainNameOutput :=
  match FindDomainName api with
  | Except.error e =>
      if NotFound e then ⟨none, "", none⟩ else ⟨none, "", some e⟩
  | Except.ok output =>
      ⟨some output,
       StringValue (Option.bind (domainNameConfigurationsHead output)
         (fun c => c.DomainNameStatus)),
       none⟩

/-- resourceDomainNameDelete from the source, as a function of the error of
the DeleteDomainName API call, returning the diagnostics list: a
NotFoundException error code returns success (empty diagnostics), any other
non-nil error appends a failing diagnostic. -/
def resourceDomainNameDelete (deleteErr : Option TFError) : List String :=
  if ErrCodeEquals deleteErr ErrCodeNotFoundException then []
  else
    match deleteErr with
    | some _ => ["deleting API Gateway v2 Domain Name"]
    | none => []

/-- Modelled from the spec: the error taxonomy of the StatusPoller
(section 7), whose engine (resource.StateChangeConf.WaitForStateContext of
the terraform-plugin-sdk) is not part of the excerpt.  RefreshError wraps
the refresh error, UnexpectedStateError carries the observed status and the
expected statuses, TimeoutError carries the last observed status/value; the
lastError field of the two fatal errors records the diagnostic a caller may
attach afterwards (tfresource.SetLastError). -/
inductive PollError (α : Type) where
  | refreshError (wrapped : TFError)
  | unexpectedStateError (observed : String) (expected : List String)
      (lastError : Option String)
  | timeoutError (lastValue : Option α) (lastStatus : Option String)
      (lastError : Option String)
  | cancelledError
deriving DecidableEq, Repr

/-- Modelled from the spec: the caller-supplied PollConfig (section 3) of
the StatusPoller, whose engine is not part of the excerpt.  Durations are
natural numbers of time units. -/
structure PollConfig where
  pendingStatuses : List String
  targetStatuses : List String
  timeout : Nat
  minDelay : Nat
  maxDelay : Nat
deriving DecidableEq, Repr

/-- Result of a whole poll: the returned value or error, together with the
number of refresh calls performed and the list of sleeps (delays) taken
between attempts. -/
inductive PollResult (α : Type) where
  | success (value : Option α) (calls : Nat) (sleeps : List Nat)
  | failure (err : PollError α) (calls : Nat) (sleeps : List Nat)
deriving DecidableEq, Repr

/-- Modelled from the spec: the loop of the StatusPoller (section 4.1),
whose engine is not part of the excerpt.  The refresh function is given as
the trace of outcomes its successive invocations return.  Each iteration:
a refresh error aborts with RefreshError; a target status succeeds with the
value; a pending status sleeps for the current delay (capped at maxDelay,
doubling afterwards, starting from minDelay) unless the sleep would push
the elapsed time past the timeout budget, in which case it aborts with
TimeoutError carrying the last observed status/value; any other status
aborts with UnexpectedStateError carrying the observed status and the
expected statuses.  An exhausted trace stands for a refresh that never
reaches a deciding outcome, which the engine eventually answers with
TimeoutError carrying the last observed status/value. -/
def pollGo {α : Type} (cfg : PollConfig) :
    List (PollOutcome α) → Nat → Nat → Option α → Option String → Nat →
    List Nat → PollResult α
  | [], _, _, lastV, lastS, calls, sleeps =>
      PollResult.failure (PollError.timeoutError lastV lastS none) calls sleeps
  | o :: rest, delay, elapsed, _, _, calls, sleeps =>
      match o.error with
      | some e =>
          PollResult.failure (PollError.refreshError e) (calls + 1) sleeps
      | none =>
          if o.status ∈ cfg.targetStatuses then
            PollResult.success o.value (calls + 1) sleeps
          else if o.status ∈ cfg.pendingStatuses then
            if cfg.timeout < elapsed + min delay cfg.maxDelay then
              PollResult.failure
                (PollError.timeoutError o.value (some o.status) none)
                (calls + 1) sleeps
            else
              pollGo cfg rest (2 * min delay cfg.maxDelay)
                (elapsed + min delay cfg.maxDelay) o.value (some o.status)
                (calls + 1) (sleeps ++ [min delay cfg.maxDelay])
          else
            PollResult.failure
              (PollError.unexpectedStateError o.status
                (cfg.pendingStatuses ++ cfg.targetStatuses) none)
              (calls + 1) sleeps

/-- Modelled from the spec: Poll (section 4.1), the entry point of the
StatusPoller, whose engine is not part of the excerpt.  Starts with zero
elapsed time, the minimum delay, no last observation, zero calls, no
sleeps. -/
def Poll {α : Type} (cfg : PollConfig) (trace : List (PollOutcome α)) :
    PollResult α :=
  pollGo cfg trace cfg.minDelay 0 none none 0 []

/-- The raw first component of WaitForStateContext: the success value, or
the last observed value carried by a TimeoutError; every other failure
yields nil. -/
def pollResultRaw {α : Type} : PollResult α → Option α
  | PollResult.success v _ _ => v
  | PollResult.failure (PollError.timeoutError v _ _) _ _ => v
  | PollResult.failure _ _ _ => none

/-- The error component of WaitForStateContext: nil on success. -/
def pollResultErr {α : Type} : PollResult α → Option (PollError α)
  | PollResult.success _ _ _ => none
  | PollResult.failure e _ _ => some e

/-- Modelled from the spec: tfresource.SetLastError (not part of the
excerpt), which attaches a last-known error detail message to a fatal poll
error for diagnostics (section 7) when none is attached yet, and leaves
every other error unchanged. -/
def SetLastError {α : Type} (e : Option (PollError α)) (msg : String) :
    Option (PollError α) :=
  match e with
  | some (PollError.timeoutError v s none) =>
      some (PollError.timeoutError v s (some msg))
  | some (PollError.unexpectedStateError o exp none) =>
      some (PollError.unexpectedStateError o exp (some msg))
  | e0 => e0

/-- The resource.StateChangeConf built by waitDomainNameAvailable in the
source: Pending [UPDATING], Target [AVAILABLE], the given timeout forwarded
unmodified; the delay bounds are not set by the source (Go zero values). -/
def waitDomainNameAvailableConf (timeout : Nat) : PollConfig :=
  { pendingStatuses := [DomainNameStatusUpdating]
    targetStatuses := [DomainNameStatusAvailable]
    timeout := timeout
    minDelay := 0
    maxDelay := 0 }

/-- waitDomainNameAvailable from the source: runs the poll with the config
above; when the raw poll result is a GetDomainNameOutput it attaches the
dereferenced DomainNameStatusMessage of its first configuration as the
last-error diagnostic (tfresource.SetLastError) and returns the output with
the error, otherwise it returns nil with the error. -/
def waitDomainNameAvailable (timeout : Nat)
    (trace : List (PollOutcome GetDomainNameOutput)) :
    Option GetDomainNameOutput × Option (PollError GetDomainNameOutput) :=
  let r := Poll (waitDomainNameAvailableConf timeout) trace
  match pollResultRaw r with
  | some output =>
      (some output,
       SetLastError (pollResultErr r)
         (StringValue (Option.bind (domainNameConfigurationsHead output)
           (fun c => c.DomainNameStatusMessage))))
  | none => (none, pollResultErr r)

/-- Example domain name configuration used by concrete witnesses. -/
def exampleConfiguration : DomainNameConfiguration :=
  ⟨none, none, none, none, none, none, some DomainNameStatusAvailable,
   some "still updating"⟩

/-- Example GetDomainName output used by concrete witnesses. -/
def exampleOutput : GetDomainNameOutput :=
  ⟨some "example.com", none, [some exampleConfiguration]⟩

/-- Example refresh outcome: still updating, no value. -/
def updatingOutcome : PollOutcome Nat := ⟨none, DomainNameStatusUpdating, none⟩

/-- Example refresh outcome: available, with a value. -/
def availableOutcome : PollOutcome Nat :=
  ⟨some 7, DomainNameStatusAvailable, none⟩

/-- Example refresh outcome over GetDomainNameOutput: still updating. -/
def updatingOutputOutcome : PollOutcome GetDomainNameOutput :=
  ⟨some exampleOutput, DomainNameStatusUpdating, none⟩

/-- One minute of time units (time.Minute), in seconds. -/
def timeMinute : Nat := 60

/-- The Timeouts block of a resource definition (schema.ResourceTimeout):
optional default timeouts for create and update. -/
structure ResourceTimeouts where
  create : Option Nat
  update : Option Nat
deriving DecidableEq, Repr

/-- The Timeouts block declared by ResourceDomainName in the source:
Create: schema.DefaultTimeout(10 * time.Minute),
Update: schema.DefaultTimeout(60 * time.Minute). -/
def resourceDomainNameTimeouts : ResourceTimeouts :=
  { create := some (10 * timeMinute), update := some (60 * timeMinute) }

/-- The wait step of resourceDomainNameCreate in the source: it passes
d.Timeout(schema.TimeoutCreate), received here as the resolved create
timeout, into waitDomainNameAvailable unmodified. -/
def resourceDomainNameCreateWait (dTimeoutCreate : Nat)
    (trace : List (PollOutcome GetDomainNameOutput)) :
    Option GetDomainNameOutput × Option (PollError GetDomainNameOutput) :=
  waitDomainNameAvailable dTimeoutCreate trace

/-- The wait step of resourceDomainNameUpdate in the source: it passes
d.Timeout(schema.TimeoutUpdate), received here as the resolved update
timeout, into waitDomainNameAvailable unmodified. -/
def resourceDomainNameUpdateWait (dTimeoutUpdate : Nat)
    (trace : List (PollOutcome GetDomainNameOutput)) :
    Option GetDomainNameOutput × Option (PollError GetDomainNameOutput) :=
  waitDomainNameAvailable dTimeoutUpdate trace

/-- Lookup of a key in a tag collection (association list of key/value
pairs): the value of its first occurrence. -/
def lookupTag : List (String × String) → String → Option String
  | [], _ => none
  | kv :: rest, key => if kv.1 = key then some kv.2 else lookupTag rest key

/-- Modelled from the spec: whether any ignore filter predicate
(reserved-prefix match or explicit ignore-list match, section 4.2) matches
a key; the TagReconciler is not part of the excerpt. -/
def matchesAnyFilter (filters : List (String → Bool)) (key : String) :
    Bool :=
  filters.any (fun f => f key)

/-- Modelled from the spec: TagDiff (section 3), the result of the
TagReconciler Diff, which is not part of the excerpt. -/
structure TagDiff where
  toCreate : List (String × String)
  toUpdate : List (String × String)
  toDelete : List String
deriving DecidableEq, Repr

/-- Modelled from the spec: Diff of the TagReconciler (section 4.2), which
is not part of the excerpt.  Both sets are first filtered by the ignore
filters; each desired key absent from filtered existing goes to toCreate,
each key present in both with differing value goes to toUpdate, each
filtered existing key absent from desired goes to toDelete.  Key and value
comparison is exact string equality. -/
def Diff (existing desired : List (String × String))
    (ignoreFilters : List (String → Bool)) : TagDiff :=
  let ex := existing.filter (fun kv => ! matchesAnyFilter ignoreFilters kv.1)
  let de := desired.filter (fun kv => ! matchesAnyFilter ignoreFilters kv.1)
  { toCreate := de.filter (fun kv => (lookupTag ex kv.1).isNone)
    toUpdate := de.filter (fun kv =>
      match lookupTag ex kv.1 with
      | some v => ! (v == kv.2)
      | none => false)
    toDelete := (ex.filter (fun kv => (lookupTag de kv.1).isNone)).map
      (fun kv => kv.1) }

/-- Modelled from the spec: the remote-state effect of Apply of the
TagReconciler (section 4.2), which is not part of the excerpt.  The
createFn/updateFn call writes the union of the create and update entries
into the remote tag map, the deleteFn call removes the keys to delete;
every other entry is untouched. -/
def applyTagDiff (state : List (String × String)) (d : TagDiff) :
    List (String × String) :=
  state.filter (fun kv =>
    ! (decide (kv.1 ∈ d.toDelete))
      && (lookupTag (d.toCreate ++ d.toUpdate) kv.1).isNone)
    ++ d.toCreate ++ d.toUpdate

/-- C5: every PollOutcome produced by statusDomainName satisfies the
invariant that an absent (nil) value implies an empty status: the nil value
arises only in the not-found and error branches, and both return exactly the
empty string as status. -/
theorem c5_statusDomainName_nil_value_implies_empty_status (api : APIResult)
    (h : (statusDomainName api).value = none) :
    (statusDomainName api).status = "" := by
  unfold statusDomainName at h ⊢
  cases hf : FindDomainName api with
  | error e =>
      simp only [hf]
      split <;> rfl
  | ok o =>
      rw [hf] at h
      simp at h

/-- Witness for C5 at a concrete not-found API result. -/
theorem c5_witness :
    (statusDomainName
      ⟨none, some (TFError.awsAPIError "NotFoundException" "gone")⟩).status
      = "" :=
  c5_statusDomainName_nil_value_implies_empty_status
    ⟨none, some (TFError.awsAPIError "NotFoundException" "gone")⟩ (by decide)

/-- C9: whenever FindDomainName succeeds, the returned output (non-nil by
type) has a non-empty DomainNameConfigurations slice whose first element is
a non-nil pointer, so the unguarded index DomainNameConfigurations[0] in
statusDomainName, waitDomainNameAvailable and resourceDomainNameRead is
safe on every successful FindDomainName result. -/
theorem c9_findDomainName_success_first_configuration_present
    (api : APIResult) (output : GetDomainNameOutput)
    (h : FindDomainName api = Except.ok output) :
    ∃ c tail, output.DomainNameConfigurations = some c :: tail ∧
      domainNameConfigurationsHead output = some c := by
  obtain ⟨out, err⟩ := api
  cases err with
  | some e =>
      by_cases hb : ErrCodeEquals (some e) ErrCodeNotFoundException = true
      · simp [FindDomainName, hb] at h
      · simp [FindDomainName, hb] at h
  | none =>
      cases out with
      | none => simp [FindDomainName, ErrCodeEquals] at h
      | some o =>
          rcases hc : o.DomainNameConfigurations with _ | ⟨c0, tail⟩
          · simp [FindDomainName, ErrCodeEquals, hc] at h
          · cases c0 with
            | none => simp [FindDomainName, ErrCodeEquals, hc] at h
            | some c =>
                have ho : o = output := by
                  simpa [FindDomainName, ErrCodeEquals, hc] using h
                subst ho
                refine ⟨c, tail, hc, ?_⟩
                unfold domainNameConfigurationsHead
                rw [hc]
                rfl

/-- Witness for C9 at a concrete successful API result. -/
theorem c9_witness :
    ∃ c tail,
      (GetDomainNameOutput.mk (some "d") none
        [some (DomainNameConfiguration.mk none none none none none none
          (some "AVAILABLE") none)]).DomainNameConfigurations
        = some c :: tail ∧
      domainNameConfigurationsHead
        (GetDomainNameOutput.mk (some "d") none
          [some (DomainNameConfiguration.mk none none none none none none
            (some "AVAILABLE") none)]) = some c :=
  c9_findDomainName_success_first_configuration_present
    ⟨some (GetDomainNameOutput.mk (some "d") none
      [some (DomainNameConfiguration.mk none none none none none none
        (some "AVAILABLE") none)]), none⟩
    (GetDomainNameOutput.mk (some "d") none
      [some (DomainNameConfiguration.mk none none none none none none
        (some "AVAILABLE") none)])
    (by rfl)

/-- C10: resourceDomainNameDelete is idempotent with respect to an
already-deleted remote object: a delete API error with the NotFoundException
code yields empty diagnostics, a nil error yields empty diagnostics, and
every other non-nil error yields a failing diagnostic. -/
theorem c10_delete_not_found_is_success :
    (∀ msg, resourceDomainNameDelete
        (some (TFError.awsAPIError ErrCodeNotFoundException msg)) = []) ∧
    resourceDomainNameDelete none = [] ∧
    (∀ e : TFError, ErrCodeEquals (some e) ErrCodeNotFoundException = false →
      resourceDomainNameDelete (some e) ≠ []) := by
  refine ⟨fun msg => ?_, rfl, fun e he => ?_⟩
  · unfold resourceDomainNameDelete
    simp [ErrCodeEquals]
  · unfold resourceDomainNameDelete
    rw [he]
    simp

/-- Witness for C10 at a concrete not-found delete error and a concrete
other error. -/
theorem c10_witness :
    resourceDomainNameDelete
      (some (TFError.awsAPIError ErrCodeNotFoundException "gone")) = [] ∧
    resourceDomainNameDelete (some (TFError.genericError "boom")) ≠ [] :=
  ⟨c10_delete_not_found_is_success.1 "gone",
   c10_delete_not_found_is_success.2.2 (TFError.genericError "boom")
     (by decide)⟩

/-- Over a prefix of pending outcomes whose sleeps fit in the timeout
budget, the poll loop steps through to the remaining trace, performing one
refresh call and one sleep per pending outcome. -/
theorem pollGo_pending_steps {α : Type} (cfg : PollConfig)
    (hdisj : ∀ s ∈ cfg.pendingStatuses, s ∉ cfg.targetStatuses)
    (pre : List (PollOutcome α)) :
    ∀ (suffix : List (PollOutcome α)) (delay elapsed : Nat) (lastV : Option α)
      (lastS : Option String) (calls : Nat) (sleeps : List Nat),
    (∀ o ∈ pre, o.error = none ∧ o.status ∈ cfg.pendingStatuses) →
    elapsed + pre.length * cfg.maxDelay ≤ cfg.timeout →
    ∃ (d2 e2 : Nat) (v2 : Option α) (s2 : Option String) (sl : List Nat),
      pollGo cfg (pre ++ suffix) delay elapsed lastV lastS calls sleeps
        = pollGo cfg suffix d2 e2 v2 s2 (calls + pre.length) (sleeps ++ sl) ∧
      sl.length = pre.length := by
  induction pre with
  | nil =>
      intro suffix delay elapsed lastV lastS calls sleeps _ _
      exact ⟨delay, elapsed, lastV, lastS, [], by simp, rfl⟩
  | cons o pre ih =>
      intro suffix delay elapsed lastV lastS calls sleeps hpre htime
      have ho := hpre o (List.mem_cons_self o pre)
      have hnt : o.status ∉ cfg.targetStatuses := hdisj o.status ho.2
      have hd : min delay cfg.maxDelay ≤ cfg.maxDelay := Nat.min_le_right _ _
      rw [List.length_cons, Nat.succ_mul] at htime
      have hto : ¬ (cfg.timeout < elapsed + min delay cfg.maxDelay) := by
        omega
      obtain ⟨d2, e2, v2, s2, sl, heq, hlen⟩ :=
        ih suffix (2 * min delay cfg.maxDelay)
          (elapsed + min delay cfg.maxDelay) o.value (some o.status)
          (calls + 1) (sleeps ++ [min delay cfg.maxDelay])
          (fun x hx => hpre x (List.mem_cons_of_mem o hx)) (by omega)
      refine ⟨d2, e2, v2, s2, min delay cfg.maxDelay :: sl, ?_, by
        simp [hlen]⟩
      have hstep :
          pollGo cfg ((o :: pre) ++ suffix) delay elapsed lastV lastS calls
              sleeps
            = pollGo cfg (pre ++ suffix) (2 * min delay cfg.maxDelay)
                (elapsed + min delay cfg.maxDelay) o.value (some o.status)
                (calls + 1) (sleeps ++ [min delay cfg.maxDelay]) := by
        rw [List.cons_append]
        simp only [pollGo, ho.1]
        rw [if_neg hnt, if_pos ho.2, if_neg hto]
      have hc : calls + 1 + pre.length = calls + (o :: pre).length := by
        simp only [List.length_cons]
        omega
      rw [hstep, heq, List.append_assoc, List.singleton_append, hc]

/-- C1: for every trace of refresh outcomes drawn entirely from the pending
statuses followed by one outcome in the target statuses (the two sets being
disjoint, the PollConfig invariant), Poll succeeds with the target value
after exactly prefix length plus one refresh calls and one sleep per
pending outcome; with zero pending outcomes it returns on the very first
refresh with zero sleeps. -/
theorem c1_poll_pending_prefix_then_target {α : Type} (cfg : PollConfig)
    (pre : List (PollOutcome α)) (tgt : PollOutcome α)
    (rest : List (PollOutcome α))
    (hdisj : ∀ s ∈ cfg.pendingStatuses, s ∉ cfg.targetStatuses)
    (hpre : ∀ o ∈ pre, o.error = none ∧ o.status ∈ cfg.pendingStatuses)
    (hte : tgt.error = none) (hts : tgt.status ∈ cfg.targetStatuses)
    (htime : pre.length * cfg.maxDelay ≤ cfg.timeout) :
    ∃ sl : List Nat,
      Poll cfg (pre ++ tgt :: rest)
        = PollResult.success tgt.value (pre.length + 1) sl ∧
      sl.length = pre.length := by
  obtain ⟨d2, e2, v2, s2, sl, heq, hlen⟩ :=
    pollGo_pending_steps cfg hdisj pre (tgt :: rest) cfg.minDelay 0 none
      none 0 [] hpre (by simpa using htime)
  refine ⟨sl, ?_, hlen⟩
  unfold Poll
  rw [heq]
  simp [pollGo, hte, hts]

/-- Witness for C1: with the waitDomainNameAvailable statuses
(pending UPDATING, target AVAILABLE), the trace Updating, Updating,
Available succeeds after exactly 3 refresh calls, and a target status on
the very first refresh succeeds after 1 call with zero sleeps. -/
theorem c1_witness :
    (∃ sl, Poll (waitDomainNameAvailableConf 600)
        ([updatingOutcome, updatingOutcome] ++ availableOutcome :: [])
        = PollResult.success (some 7) 3 sl ∧ sl.length = 2) ∧
    (∃ sl, Poll (waitDomainNameAvailableConf 600)
        ([] ++ availableOutcome :: [])
        = PollResult.success (some 7) 1 sl ∧ sl.length = 0) :=
  ⟨c1_poll_pending_prefix_then_target (waitDomainNameAvailableConf 600)
      [updatingOutcome, updatingOutcome] availableOutcome [] (by decide)
      (by decide) (by decide) (by decide) (by decide),
   c1_poll_pending_prefix_then_target (waitDomainNameAvailableConf 600)
      [] availableOutcome [] (by decide) (by decide) (by decide) (by decide)
      (by decide)⟩

/-- C2: a refresh outcome whose status is in neither the pending nor the
target statuses makes Poll abort with an UnexpectedStateError carrying the
observed status and the expected statuses, after exactly prefix length plus
one refresh calls (so no refresh call follows the unexpected outcome);
statusDomainName maps every not-found result (including the absent
sentinel) to value nil and status empty, and the empty status is outside
the waitDomainNameAvailable pending and target sets. -/
theorem c2_poll_unexpected_state_aborts {α : Type} (cfg : PollConfig)
    (pre : List (PollOutcome α)) (bad : PollOutcome α)
    (rest : List (PollOutcome α))
    (hdisj : ∀ s ∈ cfg.pendingStatuses, s ∉ cfg.targetStatuses)
    (hpre : ∀ o ∈ pre, o.error = none ∧ o.status ∈ cfg.pendingStatuses)
    (hbe : bad.error = none)
    (hbt : bad.status ∉ cfg.targetStatuses)
    (hbp : bad.status ∉ cfg.pendingStatuses)
    (htime : pre.length * cfg.maxDelay ≤ cfg.timeout) :
    (∃ sl : List Nat,
      Poll cfg (pre ++ bad :: rest)
        = PollResult.failure
            (PollError.unexpectedStateError bad.status
              (cfg.pendingStatuses ++ cfg.targetStatuses) none)
            (pre.length + 1) sl) ∧
    (∀ api : APIResult, ∀ e : TFError,
      FindDomainName api = Except.error e → NotFound e = true →
      statusDomainName api = ⟨none, "", none⟩) ∧
    (∀ t : Nat, "" ∉ (waitDomainNameAvailableConf t).pendingStatuses ∧
      "" ∉ (waitDomainNameAvailableConf t).targetStatuses) := by
  refine ⟨?_, ?_, ?_⟩
  · obtain ⟨d2, e2, v2, s2, sl, heq, hlen⟩ :=
      pollGo_pending_steps cfg hdisj pre (bad :: rest) cfg.minDelay 0 none
        none 0 [] hpre (by simpa using htime)
    refine ⟨sl, ?_⟩
    unfold Poll
    rw [heq]
    simp [pollGo, hbe, hbt, hbp]
  · intro api e hf hnf
    simp [statusDomainName, hf, hnf]
  · intro t
    refine ⟨?_, ?_⟩
    · show ("" : String) ∉ [DomainNameStatusUpdating]
      decide
    · show ("" : String) ∉ [DomainNameStatusAvailable]
      decide

/-- Witness for C2: the trace Updating, Deleted aborts with an
UnexpectedStateError observing DELETED after exactly 2 refresh calls, and
statusDomainName maps a concrete not-found API result to nil value and
empty status. -/
theorem c2_witness :
    (∃ sl, Poll (waitDomainNameAvailableConf 600)
        ([updatingOutcome] ++ (⟨none, "DELETED", none⟩ : PollOutcome Nat) :: [])
        = PollResult.failure
            (PollError.unexpectedStateError "DELETED"
              ["UPDATING", "AVAILABLE"] none) 2 sl) ∧
    statusDomainName
      ⟨none, some (TFError.awsAPIError "NotFoundException" "gone")⟩
      = ⟨none, "", none⟩ :=
  ⟨(c2_poll_unexpected_state_aborts (waitDomainNameAvailableConf 600)
      [updatingOutcome] ⟨none, "DELETED", none⟩ [] (by decide) (by decide)
      (by decide) (by decide) (by decide) (by decide)).1,
   (c2_poll_unexpected_state_aborts (waitDomainNameAvailableConf 600)
      [updatingOutcome] ⟨none, "DELETED", none⟩ [] (by decide) (by decide)
      (by decide) (by decide) (by decide) (by decide)).2.1
     ⟨none, some (TFError.awsAPIError "NotFoundException" "gone")⟩
     (TFError.notFoundError (some ErrCodeNotFoundException)) (by rfl)
     (by decide)⟩

/-- C3: a refresh outcome with a non-nil error makes Poll abort immediately
with a RefreshError wrapping that error, after exactly prefix length plus
one refresh calls (the refresh is not retried); statusDomainName forwards
every non-NotFound error of FindDomainName unchanged with nil value and
empty status. -/
theorem c3_poll_refresh_error_aborts {α : Type} (cfg : PollConfig)
    (pre : List (PollOutcome α)) (bad : PollOutcome α) (e0 : TFError)
    (rest : List (PollOutcome α))
    (hdisj : ∀ s ∈ cfg.pendingStatuses, s ∉ cfg.targetStatuses)
    (hpre : ∀ o ∈ pre, o.error = none ∧ o.status ∈ cfg.pendingStatuses)
    (hbe : bad.error = some e0)
    (htime : pre.length * cfg.maxDelay ≤ cfg.timeout) :
    (∃ sl : List Nat,
      Poll cfg (pre ++ bad :: rest)
        = PollResult.failure (PollError.refreshError e0)
            (pre.length + 1) sl) ∧
    (∀ api : APIResult, ∀ e : TFError,
      FindDomainName api = Except.error e → NotFound e = false →
      statusDomainName api = ⟨none, "", some e⟩) := by
  refine ⟨?_, ?_⟩
  · obtain ⟨d2, e2, v2, s2, sl, heq, hlen⟩ :=
      pollGo_pending_steps cfg hdisj pre (bad :: rest) cfg.minDelay 0 none
        none 0 [] hpre (by simpa using htime)
    refine ⟨sl, ?_⟩
    unfold Poll
    rw [heq]
    simp [pollGo, hbe]
  · intro api e hf hnf
    simp [statusDomainName, hf, hnf]

/-- Witness for C3: a refresh error on the second call aborts the poll with
a RefreshError after exactly 2 calls, and statusDomainName forwards a
concrete non-NotFound API error unchanged with nil value and empty
status. -/
theorem c3_witness :
    (∃ sl, Poll (waitDomainNameAvailableConf 600)
        ([updatingOutcome]
          ++ (⟨none, "", some (TFError.genericError "boom")⟩ :
                PollOutcome Nat) :: [])
        = PollResult.failure
            (PollError.refreshError (TFError.genericError "boom")) 2 sl) ∧
    statusDomainName ⟨none, some (TFError.genericError "api down")⟩
      = ⟨none, "", some (TFError.genericError "api down")⟩ :=
  ⟨(c3_poll_refresh_error_aborts (waitDomainNameAvailableConf 600)
      [updatingOutcome] ⟨none, "", some (TFError.genericError "boom")⟩
      (TFError.genericError "boom") [] (by decide) (by decide) (by decide)
      (by decide)).1,
   (c3_poll_refresh_error_aborts (waitDomainNameAvailableConf 600)
      [updatingOutcome] ⟨none, "", some (TFError.genericError "boom")⟩
      (TFError.genericError "boom") [] (by decide) (by decide) (by decide)
      (by decide)).2
     ⟨none, some (TFError.genericError "api down")⟩
     (TFError.genericError "api down") (by rfl) (by decide)⟩

/-- C4: when the sleep before the next refresh attempt would push the
elapsed time past the timeout budget, Poll aborts with a TimeoutError
carrying the last observed status/value instead of performing another
refresh (exactly one call for the first pending outcome, the rest of the
trace untouched); and whenever the raw poll result of
waitDomainNameAvailable is a GetDomainNameOutput, the function attaches the
dereferenced DomainNameStatusMessage of its first configuration as the
last-error diagnostic of the returned error. -/
theorem c4_poll_timeout_before_next_refresh {α : Type} (cfg : PollConfig)
    (o : PollOutcome α) (rest : List (PollOutcome α))
    (h1 : o.error = none) (h2 : o.status ∉ cfg.targetStatuses)
    (h3 : o.status ∈ cfg.pendingStatuses)
    (h4 : cfg.timeout < min cfg.minDelay cfg.maxDelay) :
    Poll cfg (o :: rest)
        = PollResult.failure
            (PollError.timeoutError o.value (some o.status) none) 1 [] ∧
    (∀ (timeout : Nat) (trace : List (PollOutcome GetDomainNameOutput))
       (output : GetDomainNameOutput) (ls : Option String) (calls : Nat)
       (sleeps : List Nat),
      Poll (waitDomainNameAvailableConf timeout) trace
        = PollResult.failure
            (PollError.timeoutError (some output) ls none) calls sleeps →
      waitDomainNameAvailable timeout trace
        = (some output,
           some (PollError.timeoutError (some output) ls
             (some (StringValue
               (Option.bind (domainNameConfigurationsHead output)
                 (fun c => c.DomainNameStatusMessage))))))) := by
  constructor
  · unfold Poll
    simp [pollGo, h1, h2, h3, h4]
  · intro timeout trace output ls calls sleeps h
    simp [waitDomainNameAvailable, h, pollResultRaw, pollResultErr,
      SetLastError]

/-- Witness for C4: with a timeout smaller than the first sleep, a pending
first outcome yields a TimeoutError carrying it after exactly 1 call; and
waitDomainNameAvailable on a timed-out poll whose raw result is a concrete
output attaches the status message of that output as the last-error
diagnostic. -/
theorem c4_witness :
    Poll ⟨["P"], ["T"], 0, 1, 5⟩
        [(⟨some 3, "P", none⟩ : PollOutcome Nat)]
      = PollResult.failure
          (PollError.timeoutError (some 3) (some "P") none) 1 [] ∧
    waitDomainNameAvailable 0 [updatingOutputOutcome]
      = (some exampleOutput,
         some (PollError.timeoutError (some exampleOutput)
           (some "UPDATING") (some "still updating"))) :=
  ⟨(c4_poll_timeout_before_next_refresh ⟨["P"], ["T"], 0, 1, 5⟩
      ⟨some 3, "P", none⟩ [] (by decide) (by decide) (by decide)
      (by decide)).1,
   (c4_poll_timeout_before_next_refresh (⟨["P"], ["T"], 0, 1, 5⟩ : PollConfig)
      (⟨some 3, "P", none⟩ : PollOutcome Nat) [] (by decide) (by decide)
      (by decide) (by decide)).2 0 [updatingOutputOutcome] exampleOutput
     (some "UPDATING") 1 [0] (by rfl)⟩

/-- C8: the timeout bounds are supplied by the resource definition, never
hardcoded in the poll engine: ResourceDomainName declares a create timeout
of 10 minutes and an update timeout of 60 minutes, the create and update
paths hand their resolved d.Timeout value to waitDomainNameAvailable
unchanged, and waitDomainNameAvailable forwards the given timeout
unmodified into the poll configuration. -/
theorem c8_timeouts_supplied_by_resource :
    resourceDomainNameTimeouts.create = some (10 * timeMinute) ∧
    resourceDomainNameTimeouts.update = some (60 * timeMinute) ∧
    (∀ (t : Nat) (trace : List (PollOutcome GetDomainNameOutput)),
      resourceDomainNameCreateWait t trace = waitDomainNameAvailable t trace ∧
      resourceDomainNameUpdateWait t trace
        = waitDomainNameAvailable t trace) ∧
    (∀ t : Nat, (waitDomainNameAvailableConf t).timeout = t) :=
  ⟨rfl, rfl, fun _ _ => ⟨rfl, rfl⟩, fun _ => rfl⟩

/-- Witness for C8 at a concrete timeout and trace. -/
theorem c8_witness :
    resourceDomainNameCreateWait 600 [] = waitDomainNameAvailable 600 [] ∧
    (waitDomainNameAvailableConf 600).timeout = 600 :=
  ⟨(c8_timeouts_supplied_by_resource.2.2.1 600 []).1,
   c8_timeouts_supplied_by_resource.2.2.2 600⟩

/-- Lookup of a key succeeds whenever some pair with that key is a member
of the collection. -/
theorem lookupTag_isSome_of_mem (l : List (String × String)) (k v : String)
    (h : (k, v) ∈ l) : (lookupTag l k).isSome = true := by
  induction l with
  | nil => cases h
  | cons kv t ih =>
      obtain ⟨k1, v1⟩ := kv
      rcases List.mem_cons.mp h with h1 | h2
      · injection h1 with e1 e2
        subst e1
        simp [lookupTag]
      · by_cases hk : k1 = k
        · simp [lookupTag, hk]
        · simp [lookupTag, hk, ih h2]

/-- Lookup of a key returns none exactly when no pair with that key is a
member of the collection. -/
theorem lookupTag_eq_none_iff (l : List (String × String)) (k : String) :
    lookupTag l k = none ↔ ∀ v, (k, v) ∉ l := by
  induction l with
  | nil => simp [lookupTag]
  | cons kv t ih =>
      obtain ⟨k1, v1⟩ := kv
      by_cases hk : k1 = k
      · subst hk
        constructor
        · intro h
          simp [lookupTag] at h
        · intro h
          exact absurd (List.mem_cons_self (k1, v1) t) (h v1)
      · have hk2 : ¬ (k = k1) := fun h => hk h.symm
        simp [lookupTag, hk, hk2, ih]

/-- A successful lookup names a member of the collection. -/
theorem mem_of_lookupTag_eq_some (l : List (String × String))
    (k v : String) (h : lookupTag l k = some v) : (k, v) ∈ l := by
  induction l with
  | nil => simp [lookupTag] at h
  | cons kv t ih =>
      obtain ⟨k1, v1⟩ := kv
      by_cases hk : k1 = k
      · subst hk
        simp [lookupTag] at h
        subst h
        exact List.mem_cons_self (k1, v1) t
      · simp [lookupTag, hk] at h
        exact List.mem_cons_of_mem _ (ih h)

/-- Under key uniqueness, membership determines the lookup result. -/
theorem lookupTag_of_mem_nodup (l : List (String × String)) (k v : String)
    (hnd : (l.map Prod.fst).Nodup) (h : (k, v) ∈ l) :
    lookupTag l k = some v := by
  induction l with
  | nil => cases h
  | cons kv t ih =>
      obtain ⟨k1, v1⟩ := kv
      simp only [List.map_cons, List.nodup_cons] at hnd
      rcases List.mem_cons.mp h with h1 | h2
      · injection h1 with e1 e2
        subst e1
        subst e2
        simp [lookupTag]
      · have hk : ¬ (k1 = k) := by
          intro he
          subst he
          exact hnd.1 (List.mem_map.mpr ⟨(k1, v), h2, rfl⟩)
        simp [lookupTag, hk, ih hnd.2 h2]

/-- Lookup distributes over append: the first collection wins. -/
theorem lookupTag_append (l1 l2 : List (String × String)) (k : String) :
    lookupTag (l1 ++ l2) k
      = match lookupTag l1 k with
        | some v => some v
        | none => lookupTag l2 k := by
  induction l1 with
  | nil => simp [lookupTag]
  | cons kv t ih =>
      obtain ⟨k1, v1⟩ := kv
      by_cases hk : k1 = k
      · simp [lookupTag, hk]
      · simp [lookupTag, hk, ih]

/-- Under key uniqueness, lookup through a filter keeps the looked-up pair
exactly when the filter accepts it. -/
theorem lookupTag_filter_nodup (l : List (String × String))
    (p : String × String → Bool) (k : String)
    (hnd : (l.map Prod.fst).Nodup) :
    lookupTag (l.filter p) k
      = match lookupTag l k with
        | some v => if p (k, v) then some v else none
        | none => none := by
  induction l with
  | nil => simp [lookupTag]
  | cons kv t ih =>
      obtain ⟨k1, v1⟩ := kv
      simp only [List.map_cons, List.nodup_cons] at hnd
      by_cases hk : k1 = k
      · subst hk
        have hnone : lookupTag t k1 = none := by
          rw [lookupTag_eq_none_iff]
          intro v hv
          exact hnd.1 (List.mem_map.mpr ⟨(k1, v), hv, rfl⟩)
        by_cases hp : p (k1, v1) = true
        · simp [List.filter_cons, hp, lookupTag]
        · have hfn : lookupTag (t.filter p) k1 = none := by
            rw [lookupTag_eq_none_iff]
            intro v hv
            have := List.mem_of_mem_filter hv
            exact (lookupTag_eq_none_iff t k1).mp hnone v this
          simp [List.filter_cons, hp, lookupTag, hnone, hfn]
      · by_cases hp : p (k1, v1) = true
        · simp [List.filter_cons, hp, lookupTag, hk, ih hnd.2]
        · simp [List.filter_cons, hp, lookupTag, hk, ih hnd.2]

/-- With no ignore filters, Diff computes directly on the raw
collections. -/
theorem diff_no_filters (existing desired : List (String × String)) :
    Diff existing desired []
      = { toCreate := desired.filter
            (fun kv => (lookupTag existing kv.1).isNone)
          toUpdate := desired.filter (fun kv =>
            match lookupTag existing kv.1 with
            | some v => ! (v == kv.2)
            | none => false)
          toDelete := (existing.filter
            (fun kv => (lookupTag desired kv.1).isNone)).map
            (fun kv => kv.1) } := by
  simp [Diff, matchesAnyFilter]

/-- C6: with no ignore filters, Diff puts each desired pair whose key is
absent from existing into toCreate, each desired pair whose key carries a
differing value in existing into toUpdate, and each existing key absent
from desired into toDelete; a key present in both with equal value
produces no operation; key and value comparison is exact string equality;
and on the concrete example existing a=1,b=2 against desired a=1,c=3 the
diff is toCreate c=3, toUpdate empty, toDelete b. -/
theorem c6_diff_membership (existing desired : List (String × String))
    (k v : String) :
    ((k, v) ∈ (Diff existing desired []).toCreate ↔
      (k, v) ∈ desired ∧ lookupTag existing k = none) ∧
    ((k, v) ∈ (Diff existing desired []).toUpdate ↔
      (k, v) ∈ desired ∧ ∃ w, lookupTag existing k = some w ∧ w ≠ v) ∧
    (k ∈ (Diff existing desired []).toDelete ↔
      (∃ w, (k, w) ∈ existing) ∧ lookupTag desired k = none) ∧
    ((k, v) ∈ desired → lookupTag existing k = some v →
      (k, v) ∉ (Diff existing desired []).toCreate ∧
      (k, v) ∉ (Diff existing desired []).toUpdate ∧
      k ∉ (Diff existing desired []).toDelete) ∧
    Diff [("a", "1"), ("b", "2")] [("a", "1"), ("c", "3")] []
      = ⟨[("c", "3")], [], ["b"]⟩ := by
  refine ⟨?_, ?_, ?_, ?_, by decide⟩
  · rw [diff_no_filters]
    simp [List.mem_filter, Option.isNone_iff_eq_none]
  · rw [diff_no_filters]
    simp only [List.mem_filter]
    cases h : lookupTag existing k with
    | none => simp [h]
    | some w => simp [h, bne]
  · rw [diff_no_filters]
    simp only [List.mem_map, List.mem_filter]
    constructor
    · rintro ⟨⟨k1, w⟩, ⟨hmem, hnone⟩, rfl⟩
      exact ⟨⟨w, hmem⟩, by simpa using hnone⟩
    · rintro ⟨⟨w, hmem⟩, hnone⟩
      exact ⟨(k, w), ⟨hmem, by simpa using hnone⟩, rfl⟩
  · intro hm hl
    rw [diff_no_filters]
    refine ⟨?_, ?_, ?_⟩
    · simp [List.mem_filter, hl]
    · simp [List.mem_filter, hl]
    · have hs : (lookupTag desired k).isSome = true :=
        lookupTag_isSome_of_mem desired k v hm
      simp only [List.mem_map, List.mem_filter]
      rintro ⟨⟨k1, w⟩, ⟨hmem, hnone⟩, rfl⟩
      rw [Option.isNone_iff_eq_none] at hnone
      rw [hnone] at hs
      cases hs

/-- Witness for C6: in the concrete example, the pair a=1 present in both
sides with equal value produces no operation. -/
theorem c6_witness :
    ("a", "1") ∉ (Diff [("a", "1"), ("b", "2")]
      [("a", "1"), ("c", "3")] []).toCreate ∧
    ("a", "1") ∉ (Diff [("a", "1"), ("b", "2")]
      [("a", "1"), ("c", "3")] []).toUpdate ∧
    "a" ∉ (Diff [("a", "1"), ("b", "2")]
      [("a", "1"), ("c", "3")] []).toDelete :=
  (c6_diff_membership [("a", "1"), ("b", "2")] [("a", "1"), ("c", "3")]
    "a" "1").2.2.2.1 (by decide) (by decide)

/-- Applying the no-filter diff of existing against desired to the existing
state drives every key lookup of the resulting state to the desired
value. -/
theorem lookupTag_applyTagDiff (existing desired : List (String × String))
    (hex : (existing.map Prod.fst).Nodup)
    (hde : (desired.map Prod.fst).Nodup) (k : String) :
    lookupTag (applyTagDiff existing (Diff existing desired [])) k
      = lookupTag desired k := by
  rw [diff_no_filters]
  simp only [applyTagDiff]
  set CR := desired.filter (fun kv => (lookupTag existing kv.1).isNone)
    with hCR
  set UP := desired.filter (fun kv =>
    match lookupTag existing kv.1 with
    | some v => ! (v == kv.2)
    | none => false) with hUP
  set DEL := (existing.filter
    (fun kv => (lookupTag desired kv.1).isNone)).map (fun kv => kv.1)
    with hDEL
  rcases hdk : lookupTag desired k with _ | v
  · have hcrk : lookupTag CR k = none := by
      rw [hCR, lookupTag_filter_nodup desired _ k hde, hdk]
    have hupk : lookupTag UP k = none := by
      rw [hUP, lookupTag_filter_nodup desired _ k hde, hdk]
    rcases hek : lookupTag existing k with _ | w
    · have hfk : lookupTag (existing.filter (fun kv =>
          ! (decide (kv.1 ∈ DEL))
            && (lookupTag (CR ++ UP) kv.1).isNone)) k = none := by
        rw [lookupTag_filter_nodup existing _ k hex, hek]
      rw [lookupTag_append, lookupTag_append, hfk, hcrk, hupk]
    · have hkdel : k ∈ DEL := by
        rw [hDEL]
        exact List.mem_map.mpr ⟨(k, w),
          List.mem_filter.mpr ⟨mem_of_lookupTag_eq_some existing k w hek,
            by simp [hdk]⟩, rfl⟩
      have hfk : lookupTag (existing.filter (fun kv =>
          ! (decide (kv.1 ∈ DEL))
            && (lookupTag (CR ++ UP) kv.1).isNone)) k = none := by
        rw [lookupTag_filter_nodup existing _ k hex, hek]
        simp [hkdel]
      rw [lookupTag_append, lookupTag_append, hfk, hcrk, hupk]
  · rcases hek : lookupTag existing k with _ | w
    · have hcrk : lookupTag CR k = some v := by
        rw [hCR, lookupTag_filter_nodup desired _ k hde, hdk]
        simp [hek]
      have hfk : lookupTag (existing.filter (fun kv =>
          ! (decide (kv.1 ∈ DEL))
            && (lookupTag (CR ++ UP) kv.1).isNone)) k = none := by
        rw [lookupTag_filter_nodup existing _ k hex, hek]
      rw [lookupTag_append, lookupTag_append, hfk, hcrk]
    · have hknotdel : k ∉ DEL := by
        rw [hDEL]
        intro hmem
        obtain ⟨⟨k1, w1⟩, hmf, he⟩ := List.mem_map.mp hmem
        obtain ⟨_, hpred⟩ := List.mem_filter.mp hmf
        simp only at he
        subst he
        rw [Option.isNone_iff_eq_none, hdk] at hpred
        cases hpred
      by_cases hw : w = v
      · subst hw
        have hcrk : lookupTag CR k = none := by
          rw [hCR, lookupTag_filter_nodup desired _ k hde, hdk]
          simp [hek]
        have hupk : lookupTag UP k = none := by
          rw [hUP, lookupTag_filter_nodup desired _ k hde, hdk]
          simp [hek]
        have hfk : lookupTag (existing.filter (fun kv =>
            ! (decide (kv.1 ∈ DEL))
              && (lookupTag (CR ++ UP) kv.1).isNone)) k = some w := by
          rw [lookupTag_filter_nodup existing _ k hex, hek]
          simp [hknotdel, lookupTag_append, hcrk, hupk]
        rw [lookupTag_append, lookupTag_append, hfk, hcrk, hupk]
      · have hcrk : lookupTag CR k = none := by
          rw [hCR, lookupTag_filter_nodup desired _ k hde, hdk]
          simp [hek]
        have hupk : lookupTag UP k = some v := by
          rw [hUP, lookupTag_filter_nodup desired _ k hde, hdk]
          simp [hek, hw]
        have hfk : lookupTag (existing.filter (fun kv =>
            ! (decide (kv.1 ∈ DEL))
              && (lookupTag (CR ++ UP) kv.1).isNone)) k = none := by
          rw [lookupTag_filter_nodup existing _ k hex, hek]
          simp [lookupTag_append, hcrk, hupk]
        rw [lookupTag_append, lookupTag_append, hfk, hcrk, hupk]

/-- C7: computing the no-filter Diff, applying it to the existing state,
and re-computing Diff of the result against desired yields empty toCreate,
toUpdate and toDelete (reconciliation converges); and for arbitrary ignore
filters, the three components of Diff are mutually exclusive over keys and
contained in the union of the existing and desired keys minus the ignored
keys. -/
theorem c7_diff_apply_convergence :
    (∀ existing desired : List (String × String),
      (existing.map Prod.fst).Nodup → (desired.map Prod.fst).Nodup →
      Diff (applyTagDiff existing (Diff existing desired [])) desired []
        = ⟨[], [], []⟩) ∧
    (∀ (existing desired : List (String × String))
       (filters : List (String → Bool)) (k : String),
      ¬ (k ∈ (Diff existing desired filters).toCreate.map Prod.fst ∧
         k ∈ (Diff existing desired filters).toUpdate.map Prod.fst) ∧
      ¬ (k ∈ (Diff existing desired filters).toCreate.map Prod.fst ∧
         k ∈ (Diff existing desired filters).toDelete) ∧
      ¬ (k ∈ (Diff existing desired filters).toUpdate.map Prod.fst ∧
         k ∈ (Diff existing desired filters).toDelete) ∧
      ((k ∈ (Diff existing desired filters).toCreate.map Prod.fst ∨
        k ∈ (Diff existing desired filters).toUpdate.map Prod.fst ∨
        k ∈ (Diff existing desired filters).toDelete) →
        (k ∈ existing.map Prod.fst ∨ k ∈ desired.map Prod.fst) ∧
        matchesAnyFilter filters k = false)) := by
  constructor
  · intro existing desired hex hde
    have hpt := lookupTag_applyTagDiff existing desired hex hde
    rw [diff_no_filters]
    have h1 : (desired.filter (fun kv =>
        (lookupTag (applyTagDiff existing (Diff existing desired []))
          kv.1).isNone)) = [] := by
      rw [List.filter_eq_nil_iff]
      rintro ⟨k, v⟩ hm hp
      simp only [hpt k, Option.isNone_iff_eq_none] at hp
      have hs := lookupTag_isSome_of_mem desired k v hm
      rw [hp] at hs
      cases hs
    have h2 : (desired.filter (fun kv =>
        match lookupTag (applyTagDiff existing (Diff existing desired []))
          kv.1 with
        | some v => ! (v == kv.2)
        | none => false)) = [] := by
      rw [List.filter_eq_nil_iff]
      rintro ⟨k, v⟩ hm hp
      have hv := lookupTag_of_mem_nodup desired k v hde hm
      simp only [hpt k, hv] at hp
      simp at hp
    have h3 : (((applyTagDiff existing
        (Diff existing desired [])).filter (fun kv =>
          (lookupTag desired kv.1).isNone)).map (fun kv => kv.1)) = [] := by
      rw [List.map_eq_nil_iff, List.filter_eq_nil_iff]
      rintro ⟨k, v⟩ hm hp
      have hs := lookupTag_isSome_of_mem _ k v hm
      rw [hpt k] at hs
      rw [Option.isNone_iff_eq_none] at hp
      simp only at hp
      rw [hp] at hs
      cases hs
    rw [h1, h2, h3]
  · intro existing desired filters k
    simp only [Diff]
    refine ⟨?_, ?_, ?_, ?_⟩
    · rintro ⟨hc, hu⟩
      obtain ⟨⟨k1, v1⟩, hm1, he1⟩ := List.mem_map.mp hc
      obtain ⟨_, hp1⟩ := List.mem_filter.mp hm1
      simp only at he1
      subst he1
      obtain ⟨⟨k2, v2⟩, hm2, he2⟩ := List.mem_map.mp hu
      obtain ⟨_, hp2⟩ := List.mem_filter.mp hm2
      simp only at he2
      subst he2
      rw [Option.isNone_iff_eq_none] at hp1
      simp only at hp1
      rw [hp1] at hp2
      simp at hp2
    · rintro ⟨hc, hd⟩
      obtain ⟨⟨k1, v1⟩, hm1, he1⟩ := List.mem_map.mp hc
      obtain ⟨_, hp1⟩ := List.mem_filter.mp hm1
      simp only at he1
      subst he1
      obtain ⟨⟨k2, v2⟩, hm2, he2⟩ := List.mem_map.mp hd
      obtain ⟨hmex, _⟩ := List.mem_filter.mp hm2
      simp only at he2
      subst he2
      rw [Option.isNone_iff_eq_none] at hp1
      simp only at hp1
      have hs := lookupTag_isSome_of_mem _ _ v2 hmex
      rw [hp1] at hs
      cases hs
    · rintro ⟨hu, hd⟩
      obtain ⟨⟨k1, v1⟩, hm1, he1⟩ := List.mem_map.mp hu
      obtain ⟨hmde, _⟩ := List.mem_filter.mp hm1
      simp only at he1
      subst he1
      obtain ⟨⟨k2, v2⟩, hm2, he2⟩ := List.mem_map.mp hd
      obtain ⟨_, hp2⟩ := List.mem_filter.mp hm2
      simp only at he2
      subst he2
      have hs := lookupTag_isSome_of_mem _ _ v1 hmde
      rw [Option.isNone_iff_eq_none] at hp2
      simp only at hp2
      rw [hp2] at hs
      cases hs
    · intro h
      rcases h with hc | hu | hd
      · obtain ⟨⟨k1, v1⟩, hm1, he1⟩ := List.mem_map.mp hc
        obtain ⟨hmde, _⟩ := List.mem_filter.mp hm1
        simp only at he1
        subst he1
        obtain ⟨hdes, hnf⟩ := List.mem_filter.mp hmde
        refine ⟨Or.inr (List.mem_map.mpr ⟨(k1, v1), hdes, rfl⟩), ?_⟩
        simpa using hnf
      · obtain ⟨⟨k1, v1⟩, hm1, he1⟩ := List.mem_map.mp hu
        obtain ⟨hmde, _⟩ := List.mem_filter.mp hm1
        simp only at he1
        subst he1
        obtain ⟨hdes, hnf⟩ := List.mem_filter.mp hmde
        refine ⟨Or.inr (List.mem_map.mpr ⟨(k1, v1), hdes, rfl⟩), ?_⟩
        simpa using hnf
      · obtain ⟨⟨k1, v1⟩, hm1, he1⟩ := List.mem_map.mp hd
        obtain ⟨hmex, _⟩ := List.mem_filter.mp hm1
        simp only at he1
        subst he1
        obtain ⟨hexi, hnf⟩ := List.mem_filter.mp hmex
        refine ⟨Or.inl (List.mem_map.mpr ⟨(k1, v1), hexi, rfl⟩), ?_⟩
        simpa using hnf

/-- Witness for C7: the concrete example converges after one apply. -/
theorem c7_witness :
    Diff (applyTagDiff [("a", "1"), ("b", "2")]
        (Diff [("a", "1"), ("b", "2")] [("a", "1"), ("c", "3")] []))
      [("a", "1"), ("c", "3")] [] = ⟨[], [], []⟩ :=
  c7_diff_apply_convergence.1 [("a", "1"), ("b", "2")]
    [("a", "1"), ("c", "3")] (by decide) (by decide)
